import Mathlib

/-!
Shallow embedding of the btc-power-tracker backend (src/server.py) and
verification of the specification claims about it.

Modelling conventions:
- Python floats are embedded as rationals (ℚ); `round(x, 2)` is embedded as
  `pyRound2`, round-half-to-even at two decimals, matching Python's `round`.
- A Python function that may raise is embedded as a value of
  `Except String _` (the string is the exception message, as used by the
  orchestrator's `str(e)` diagnostics).
- Adapter HTTP calls are embedded by passing the decoded response (or the
  raised failure) as an argument; the adapters' post-processing is translated
  from the source.
- A `FetchResult` dict is a structure; the optional `errors` key is the
  `errors` list (empty list = key absent, matching `data.get("errors")`
  falsiness) and the optional `stale` key is the `stale` Bool
  (`false` = key absent).
-/

namespace Server

/-- One history point, `{"timestamp": ..., "hashrate_ehs": ...}`. -/
structure HistoryPoint where
  timestamp : ℤ
  hashrate_ehs : ℚ
  deriving DecidableEq

/-- The common result shape produced by the adapters and the orchestrator. -/
structure FetchResult where
  source : String
  hashrate_ehs : ℚ
  history : List HistoryPoint
  errors : List String
  stale : Bool
  deriving DecidableEq

/-! ## Rounding: Python `round(x, 2)` over ℚ -/

/-- Round a rational to the nearest integer, ties to even (Python `round`). -/
def roundHalfEven (q : ℚ) : ℤ :=
  let f := ⌊q⌋
  let r := q - (f : ℚ)
  if r < 1 / 2 then f
  else if 1 / 2 < r then f + 1
  else if f % 2 = 0 then f else f + 1

/-- Python `round(x, 2)` over ℚ. -/
def pyRound2 (q : ℚ) : ℚ := (roundHalfEven (q * 100) : ℚ) / 100

/-! ## TTL cache with stale-while-revalidate (`cached_get`, server.py:106) -/

/-- `CACHE_TTL = 60` (fresh for 60 seconds). -/
def CACHE_TTL : ℚ := 60

/-- `CACHE_STALE_TTL = 300` (serve stale up to 5 minutes on fetch failure). -/
def CACHE_STALE_TTL : ℚ := 300

/-- One `_cache` entry, `{"value": ..., "ts": ...}`. -/
structure CacheEntry where
  value : FetchResult
  ts : ℚ
  deriving DecidableEq

/-- `cached_get(key, fetch_fn)` for one key. `entry` is the current cache
entry for the key (`_cache.get(key)`), `now` is `time.time()` at entry, and
`fetch_result` is the outcome of calling `fetch_fn()` (ok value or raised
message). Returns the produced value together with the cache entry for the
key after the call, or propagates the fetch failure. The stale branch mutates
the stored value in place (`entry["value"]["stale"] = True`) and leaves the
stored timestamp untouched, exactly as the source does. -/
def cached_get (entry : Option CacheEntry) (now : ℚ)
    (fetch_result : Except String FetchResult) :
    Except String (FetchResult × Option CacheEntry) :=
  match entry with
  | some e =>
      if now - e.ts < CACHE_TTL then
        .ok (e.value, some e)
      else
        match fetch_result with
        | .ok value => .ok (value, some ⟨value, now⟩)
        | .error msg =>
            if now - e.ts < CACHE_STALE_TTL then
              .ok ({ e.value with stale := true },
                   some ⟨{ e.value with stale := true }, e.ts⟩)
            else
              .error msg
  | none =>
      match fetch_result with
      | .ok value => .ok (value, some ⟨value, now⟩)
      | .error msg => .error msg

/-! ## Retry executor (`fetch_with_retry`, server.py:132) -/

/-- The loop body of `fetch_with_retry`: `fuel` is the number of attempts
still allowed, `attempt` the index of the next attempt, `last_error` the
message of the most recent failure (`None` before the first attempt).
`outcomes n` is what the wrapped call does on its n-th invocation; `jitter n`
is the value drawn by `random.uniform(0, 0.5)` after a failed attempt `n`.
Returns the overall outcome, the list of sleep durations performed, and the
number of invocations made. -/
def retry_go (outcomes : ℕ → Except String α) (jitter : ℕ → ℚ)
    (base_delay : ℚ) :
    ℕ → ℕ → Option String → Except (Option String) α × List ℚ × ℕ
  | 0, _, last_error => (.error last_error, [], 0)
  | fuel + 1, attempt, _ =>
      match outcomes attempt with
      | .ok a => (.ok a, [], 1)
      | .error e =>
          match fuel with
          | 0 => (.error (some e), [], 1)
          | f + 1 =>
              let rest :=
                retry_go outcomes jitter base_delay (f + 1) (attempt + 1)
                  (some e)
              (rest.1,
               (base_delay * 2 ^ attempt + jitter attempt) :: rest.2.1,
               rest.2.2 + 1)

/-- `fetch_with_retry(fetch_fn, max_retries, base_delay)`. -/
def fetch_with_retry (outcomes : ℕ → Except String α) (jitter : ℕ → ℚ)
    (max_retries : ℕ) (base_delay : ℚ) :
    Except (Option String) α × List ℚ × ℕ :=
  retry_go outcomes jitter base_delay max_retries 0 none

/-! ## Period mapper (`_mempool_period`, server.py:150) -/

/-- `_mempool_period(days)`: map a day count to the smallest mempool.space
period that covers it. -/
def _mempool_period (days : ℤ) : String :=
  if days ≤ 3 then "3d"
  else if days ≤ 7 then "1w"
  else if days ≤ 14 then "2w"
  else if days ≤ 30 then "1m"
  else if days ≤ 90 then "3m"
  else if days ≤ 180 then "6m"
  else if days ≤ 365 then "1y"
  else if days ≤ 730 then "2y"
  else if days ≤ 1095 then "3y"
  else "all"

/-! ## Blockchair adapter (`fetch_hashrate_blockchair`, server.py:301) -/

/-- `fetch_hashrate_blockchair(days)` on the success path of its HTTP call.
`hashrate_24h` is `data.get("data", {}).get("hashrate_24h", 0)` decoded from
the response: `none` models the field (or the whole `data` object) being
absent, `some v` the field holding `v` H/s. `now` is `int(time.time())`. -/
def fetch_hashrate_blockchair (hashrate_24h : Option ℚ) (now : ℤ) :
    FetchResult :=
  let hashrate_hs := hashrate_24h.getD 0
  let current_ehs := hashrate_hs / 1000000000000000000
  { source := "blockchair"
    hashrate_ehs := pyRound2 current_ehs
    history := [⟨now, pyRound2 current_ehs⟩]
    errors := []
    stale := false }

/-! ## Orchestrator (`get_hashrate_data`, server.py:333) -/

/-- The candidate list built by `get_hashrate_data`: luxor first iff
`LUXOR_API_KEY` is non-empty, then the three free sources in fixed order.
`k` is `LUXOR_API_KEY`; each `o_` is the outcome of that source's fetch
(ok result or raised message). -/
def candidate_sources (k : String) (oL oM oB oC : Except String FetchResult) :
    List (String × Except String FetchResult) :=
  (if k = "" then [] else [("luxor", oL)]) ++
    [("mempool.space", oM), ("blockchain.info", oB), ("blockchair", oC)]

/-- The `for name, fetch_fn in sources` loop of `get_hashrate_data`, with
the accumulated `errors` list as an argument. -/
def orchestrate_loop :
    List (String × Except String FetchResult) → List String → FetchResult
  | [], errs =>
      { source := "unavailable", hashrate_ehs := 0, history := [],
        errors := errs, stale := false }
  | (name, o) :: rest, errs =>
      match o with
      | .ok result =>
          if 0 < result.hashrate_ehs then result
          else orchestrate_loop rest errs
      | .error e => orchestrate_loop rest (errs ++ [name ++ ": " ++ e])

/-- `get_hashrate_data(days)`, abstracted over the per-source outcomes. -/
def get_hashrate_data (k : String)
    (oL oM oB oC : Except String FetchResult) : FetchResult :=
  orchestrate_loop (candidate_sources k oL oM oB oC) []

/-- Specification-side reading of the orchestrator contract: the result of
the first candidate, in list order, that returned ok with a positive
hashrate. Used to compare `get_hashrate_data` against the spec's words. -/
def firstPositiveResult :
    List (String × Except String FetchResult) → Option FetchResult
  | [] => none
  | (_, o) :: rest =>
      match o with
      | .ok r =>
          if 0 < r.hashrate_ehs then some r else firstPositiveResult rest
      | .error _ => firstPositiveResult rest

/-- A source outcome the loop moves past: the fetch raised, or it returned
a result whose `hashrate_ehs` is not positive. -/
def failed_or_nonpositive (o : Except String FetchResult) : Prop :=
  match o with
  | .ok r => ¬ 0 < r.hashrate_ehs
  | .error _ => True

/-- The diagnostics the loop accumulates: one entry per candidate whose
fetch raised, in order; candidates that returned ok contribute nothing. -/
def raised_diagnostics
    (l : List (String × Except String FetchResult)) : List String :=
  l.filterMap (fun p =>
    match p.2 with
    | .ok _ => none
    | .error e => some (p.1 ++ ": " ++ e))

/-! ## Power calculator (`compute_power`, server.py:368) -/

/-- One row of `FLEET_MODEL`. -/
structure FleetEntry where
  model : String
  efficiency : ℚ
  weight : ℚ
  deriving DecidableEq

/-- `FLEET_MODEL` (server.py:24). -/
def FLEET_MODEL : List FleetEntry :=
  [⟨"Antminer S19j Pro", 30.5, 0.15⟩,
   ⟨"Antminer S19 XP", 21.5, 0.20⟩,
   ⟨"Antminer S19k Pro", 23.0, 0.10⟩,
   ⟨"Antminer S21", 17.5, 0.15⟩,
   ⟨"Antminer S21 Pro", 15.0, 0.05⟩,
   ⟨"Antminer T21", 19.0, 0.08⟩,
   ⟨"WhatsMiner M50S", 26.0, 0.07⟩,
   ⟨"WhatsMiner M60S", 18.5, 0.08⟩,
   ⟨"Legacy (S9/older)", 75.0, 0.05⟩,
   ⟨"Other/Canaan", 22.0, 0.07⟩]

/-- `CONUS_SHARE = 0.378` (37.8% of global hash rate). -/
def CONUS_SHARE : ℚ := 0.378

/-- `FLEET_WEIGHTED_EFFICIENCY = sum(m["efficiency"] * m["weight"] ...)`. -/
def FLEET_WEIGHTED_EFFICIENCY : ℚ :=
  (FLEET_MODEL.map (fun m => m.efficiency * m.weight)).sum

/-- `compute_power(hashrate_ehs)`: CONUS and global estimated power in GW. -/
def compute_power (hashrate_ehs : ℚ) : ℚ × ℚ :=
  let hashrate_ths := hashrate_ehs * 1000000
  let conus_watts := hashrate_ths * CONUS_SHARE * FLEET_WEIGHTED_EFFICIENCY
  let conus_gw := conus_watts / 1000000000
  let global_watts := hashrate_ths * FLEET_WEIGHTED_EFFICIENCY
  let global_gw := global_watts / 1000000000
  (pyRound2 conus_gw, pyRound2 global_gw)

/-! ## Helper lemmas -/

theorem roundHalfEven_intCast (n : ℤ) : roundHalfEven (n : ℚ) = n := by
  unfold roundHalfEven
  norm_num

theorem pyRound2_intCast (n : ℤ) : pyRound2 (n : ℚ) = n := by
  unfold pyRound2
  have h : ((n : ℚ)) * 100 = ((n * 100 : ℤ) : ℚ) := by push_cast; ring
  rw [h, roundHalfEven_intCast]
  push_cast
  ring

theorem pyRound2_zero : pyRound2 0 = 0 := by
  simpa using pyRound2_intCast 0

theorem orchestrate_loop_first_positive :
    ∀ (l : List (String × Except String FetchResult)) (errs : List String)
      (r : FetchResult),
      firstPositiveResult l = some r → orchestrate_loop l errs = r := by
  intro l
  induction l with
  | nil => intro errs r h; simp [firstPositiveResult] at h
  | cons p rest ih =>
      intro errs r h
      obtain ⟨name, o⟩ := p
      cases o with
      | ok res =>
          by_cases hpos : 0 < res.hashrate_ehs
          · simp [firstPositiveResult, hpos] at h
            subst h
            simp [orchestrate_loop, hpos]
          · simp [firstPositiveResult, hpos] at h
            simpa [orchestrate_loop, hpos] using ih errs r h
      | error e =>
          simp [firstPositiveResult] at h
          simpa [orchestrate_loop] using ih _ r h

theorem orchestrate_loop_exhausted :
    ∀ (l : List (String × Except String FetchResult)) (errs : List String),
      (∀ p ∈ l, failed_or_nonpositive p.2) →
      orchestrate_loop l errs =
        { source := "unavailable", hashrate_ehs := 0, history := [],
          errors := errs ++ raised_diagnostics l, stale := false } := by
  intro l
  induction l with
  | nil => intro errs _; simp [orchestrate_loop, raised_diagnostics]
  | cons p rest ih =>
      intro errs h
      obtain ⟨name, o⟩ := p
      have hp := h (name, o) (List.mem_cons_self _ _)
      cases o with
      | ok res =>
          have hp2 : ¬ 0 < res.hashrate_ehs := hp
          have hrest := ih errs (fun q hq => h q (List.mem_cons_of_mem _ hq))
          simpa [orchestrate_loop, hp2, raised_diagnostics] using hrest
      | error e =>
          have hrest := ih (errs ++ [name ++ ": " ++ e])
            (fun q hq => h q (List.mem_cons_of_mem _ hq))
          simpa [orchestrate_loop, raised_diagnostics, List.append_assoc]
            using hrest

/-! ## Claim theorems -/

set_option maxHeartbeats 1600000 in
/-- Claim C8: the period mapper is pure and total on every integer day
count and maps, boundary inclusive on the upper end of each bucket,
days ≤ 3 to "3d", ≤ 7 to "1w", ≤ 14 to "2w", ≤ 30 to "1m", ≤ 90 to "3m",
≤ 180 to "6m", ≤ 365 to "1y", ≤ 730 to "2y", ≤ 1095 to "3y", and otherwise
to "all"; in particular it maps 3 to "3d", 4 to "1w", 1095 to "3y" and
1096 to "all". -/
theorem mempool_period_buckets :
    (∀ d : ℤ,
      (d ≤ 3 → _mempool_period d = "3d")
      ∧ (3 < d → d ≤ 7 → _mempool_period d = "1w")
      ∧ (7 < d → d ≤ 14 → _mempool_period d = "2w")
      ∧ (14 < d → d ≤ 30 → _mempool_period d = "1m")
      ∧ (30 < d → d ≤ 90 → _mempool_period d = "3m")
      ∧ (90 < d → d ≤ 180 → _mempool_period d = "6m")
      ∧ (180 < d → d ≤ 365 → _mempool_period d = "1y")
      ∧ (365 < d → d ≤ 730 → _mempool_period d = "2y")
      ∧ (730 < d → d ≤ 1095 → _mempool_period d = "3y")
      ∧ (1095 < d → _mempool_period d = "all"))
    ∧ _mempool_period 3 = "3d" ∧ _mempool_period 4 = "1w"
    ∧ _mempool_period 1095 = "3y" ∧ _mempool_period 1096 = "all" := by
  constructor
  · intro d
    refine ⟨?_, ?_, ?_, ?_, ?_, ?_, ?_, ?_, ?_, ?_⟩ <;>
      · intros
        unfold _mempool_period
        split_ifs <;> first | rfl | omega
  · refine ⟨?_, ?_, ?_, ?_⟩ <;>
      · unfold _mempool_period
        split_ifs <;> first | rfl | omega

/-- Witness for C8: the bucket clauses evaluated at concrete inputs. -/
theorem mempool_period_buckets_witness :
    _mempool_period 2 = "3d" ∧ _mempool_period 5 = "1w"
    ∧ _mempool_period 10 = "2w" ∧ _mempool_period 20 = "1m"
    ∧ _mempool_period 60 = "3m" ∧ _mempool_period 120 = "6m"
    ∧ _mempool_period 300 = "1y" ∧ _mempool_period 600 = "2y"
    ∧ _mempool_period 1000 = "3y" ∧ _mempool_period 2000 = "all" :=
  ⟨(mempool_period_buckets.1 2).1 (by norm_num),
   (mempool_period_buckets.1 5).2.1 (by norm_num) (by norm_num),
   (mempool_period_buckets.1 10).2.2.1 (by norm_num) (by norm_num),
   (mempool_period_buckets.1 20).2.2.2.1 (by norm_num) (by norm_num),
   (mempool_period_buckets.1 60).2.2.2.2.1 (by norm_num) (by norm_num),
   (mempool_period_buckets.1 120).2.2.2.2.2.1 (by norm_num) (by norm_num),
   (mempool_period_buckets.1 300).2.2.2.2.2.2.1 (by norm_num) (by norm_num),
   (mempool_period_buckets.1 600).2.2.2.2.2.2.2.1 (by norm_num)
     (by norm_num),
   (mempool_period_buckets.1 1000).2.2.2.2.2.2.2.2.1 (by norm_num)
     (by norm_num),
   (mempool_period_buckets.1 2000).2.2.2.2.2.2.2.2.2 (by norm_num)⟩

/-- Claim C9: `compute_power` is deterministic and returns the pair
`(round2(h * 1e6 * CONUS_SHARE * FLEET_WEIGHTED_EFFICIENCY / 1e9),
round2(h * 1e6 * FLEET_WEIGHTED_EFFICIENCY / 1e9))`; before rounding the
CONUS figure equals the global figure times `CONUS_SHARE = 0.378`, and for
zero hashrate both results are zero. -/
theorem compute_power_spec (h : ℚ) :
    compute_power h =
      (pyRound2 (h * 1000000 * CONUS_SHARE * FLEET_WEIGHTED_EFFICIENCY
          / 1000000000),
       pyRound2 (h * 1000000 * FLEET_WEIGHTED_EFFICIENCY / 1000000000))
    ∧ h * 1000000 * CONUS_SHARE * FLEET_WEIGHTED_EFFICIENCY / 1000000000
        = h * 1000000 * FLEET_WEIGHTED_EFFICIENCY / 1000000000 * CONUS_SHARE
    ∧ CONUS_SHARE = 378 / 1000
    ∧ compute_power 0 = (0, 0) := by
  refine ⟨rfl, by ring, by norm_num [CONUS_SHARE], ?_⟩
  simp [compute_power, pyRound2_zero]

/-- Claim C10: on the success path of its HTTP call,
`fetch_hashrate_blockchair` returns a result whose history is exactly one
point, stamped with the current time and carrying the result's own current
value `round2(hashrate_24h / 1e18)`; if the `hashrate_24h` field is absent
or zero it returns a zero-hashrate result with that same one-point history
instead of raising, so the history is never empty. -/
theorem fetch_hashrate_blockchair_spec (s : Option ℚ) (now : ℤ) :
    (fetch_hashrate_blockchair s now).history
      = [⟨now, (fetch_hashrate_blockchair s now).hashrate_ehs⟩]
    ∧ (fetch_hashrate_blockchair s now).history.length = 1
    ∧ (fetch_hashrate_blockchair s now).hashrate_ehs
        = pyRound2 (s.getD 0 / 1000000000000000000)
    ∧ (s = none → fetch_hashrate_blockchair s now
        = { source := "blockchair", hashrate_ehs := 0,
            history := [⟨now, 0⟩], errors := [], stale := false })
    ∧ (s = some 0 → fetch_hashrate_blockchair s now
        = { source := "blockchair", hashrate_ehs := 0,
            history := [⟨now, 0⟩], errors := [], stale := false }) := by
  refine ⟨rfl, rfl, rfl, ?_, ?_⟩
  · rintro rfl
    simp [fetch_hashrate_blockchair, pyRound2_zero]
  · rintro rfl
    simp [fetch_hashrate_blockchair, pyRound2_zero]

/-- Witness for C10: an absent `hashrate_24h` field at time 5 yields the
zero result with a single history point. -/
theorem fetch_hashrate_blockchair_spec_witness :
    fetch_hashrate_blockchair none 5
      = { source := "blockchair", hashrate_ehs := 0,
          history := [⟨5, 0⟩], errors := [], stale := false } :=
  (fetch_hashrate_blockchair_spec none 5).2.2.2.1 rfl

/-- Claim C3: for a stored entry whose age satisfies
`CACHE_TTL ≤ age < CACHE_STALE_TTL`, a `cached_get` call whose fetch raises
returns the previously stored value with `stale := true` added, and the
entry's stored timestamp is not updated by the failed attempt. -/
theorem cached_get_stale_serves (e : CacheEntry) (now : ℚ) (msg : String)
    (h1 : CACHE_TTL ≤ now - e.ts) (h2 : now - e.ts < CACHE_STALE_TTL) :
    cached_get (some e) now (.error msg) =
      .ok ({ e.value with stale := true },
           some ⟨{ e.value with stale := true }, e.ts⟩) := by
  have h1n : ¬ now - e.ts < CACHE_TTL := not_lt.mpr h1
  simp [cached_get, h1n, h2]

/-- Witness for C3: entry fetched at time 0, revalidation failing at time
100 (age 100, between the TTLs) serves the stored value stale-marked with
the stored timestamp still 0. -/
theorem cached_get_stale_serves_witness :
    cached_get (some ⟨⟨"mempool.space", 500, [], [], false⟩, 0⟩) 100
        (.error "boom") =
      .ok (⟨"mempool.space", 500, [], [], true⟩,
           some ⟨⟨"mempool.space", 500, [], [], true⟩, 0⟩) := by
  have h := cached_get_stale_serves
    ⟨⟨"mempool.space", 500, [], [], false⟩, 0⟩ 100 "boom"
    (by norm_num [CACHE_TTL]) (by norm_num [CACHE_STALE_TTL])
  simpa using h

/-- Claim C4: when no entry exists, or the stored entry's age is at least
`CACHE_STALE_TTL`, a raising fetch is propagated to the caller; and these
are the only conditions under which `cached_get` fails. -/
theorem cached_get_expired_propagates (now : ℚ) (msg : String) :
    cached_get none now (.error msg) = .error msg
    ∧ (∀ e : CacheEntry, CACHE_STALE_TTL ≤ now - e.ts →
        cached_get (some e) now (.error msg) = .error msg)
    ∧ (∀ (entry : Option CacheEntry)
        (fetch_result : Except String FetchResult) (out : String),
        cached_get entry now fetch_result = .error out →
        fetch_result = .error out ∧
          (entry = none ∨
            ∃ e, entry = some e ∧ CACHE_STALE_TTL ≤ now - e.ts)) := by
  refine ⟨rfl, ?_, ?_⟩
  · intro e h
    have h1n : ¬ now - e.ts < CACHE_TTL := by
      unfold CACHE_TTL
      unfold CACHE_STALE_TTL at h
      linarith
    have h2n : ¬ now - e.ts < CACHE_STALE_TTL := not_lt.mpr h
    simp [cached_get, h1n, h2n]
  · intro entry fetch_result out h
    cases entry with
    | none =>
        cases fetch_result with
        | ok v => simp [cached_get] at h
        | error m =>
            simp [cached_get] at h
            exact ⟨by rw [h], Or.inl rfl⟩
    | some e =>
        cases fetch_result with
        | ok v =>
            by_cases hf : now - e.ts < CACHE_TTL <;>
              simp [cached_get, hf] at h
        | error m =>
            by_cases hf : now - e.ts < CACHE_TTL
            · simp [cached_get, hf] at h
            · by_cases hs : now - e.ts < CACHE_STALE_TTL
              · simp [cached_get, hf, hs] at h
              · simp [cached_get, hf, hs] at h
                exact ⟨by rw [h], Or.inr ⟨e, rfl, not_lt.mp hs⟩⟩

/-- Witness for C4: a failing fetch propagates both on a missing entry and
on an entry of age 400 (past `CACHE_STALE_TTL`). -/
theorem cached_get_expired_propagates_witness :
    cached_get none 400 (.error "boom") = .error "boom"
    ∧ cached_get (some ⟨⟨"mempool.space", 500, [], [], false⟩, 0⟩) 400
        (.error "boom") = .error "boom" :=
  ⟨(cached_get_expired_propagates 400 "boom").1,
   (cached_get_expired_propagates 400 "boom").2.1
     ⟨⟨"mempool.space", 500, [], [], false⟩, 0⟩
     (by norm_num [CACHE_STALE_TTL])⟩

/-- Claim C5: after a first call performs a successful fetch of a value
with no stale marker and stores it at time `t1`, any second call within
`CACHE_TTL` of `t1` returns exactly the stored value — independently of its
own fetch function, so no fetch is performed — with the entry unchanged and
no stale marker. -/
theorem cached_get_fresh_no_refetch (e0 : Option CacheEntry)
    (v : FetchResult) (t1 t2 : ℚ)
    (hmiss : ∀ en, e0 = some en → CACHE_TTL ≤ t1 - en.ts)
    (hfresh : t2 - t1 < CACHE_TTL) (hst : v.stale = false) :
    cached_get e0 t1 (.ok v) = .ok (v, some ⟨v, t1⟩)
    ∧ (∀ f2, cached_get (some ⟨v, t1⟩) t2 f2 = .ok (v, some ⟨v, t1⟩))
    ∧ v.stale = false := by
  refine ⟨?_, ?_, hst⟩
  · cases e0 with
    | none => rfl
    | some en =>
        have hn : ¬ t1 - en.ts < CACHE_TTL := not_lt.mpr (hmiss en rfl)
        simp [cached_get, hn]
  · intro f2
    simp [cached_get, hfresh]

/-- Witness for C5: a first fetch at time 0 stores the value; a second call
at time 30 returns it unchanged even though its own fetch would fail. -/
theorem cached_get_fresh_no_refetch_witness :
    cached_get none 0 (.ok ⟨"mempool.space", 600, [], [], false⟩)
      = .ok (⟨"mempool.space", 600, [], [], false⟩,
             some ⟨⟨"mempool.space", 600, [], [], false⟩, 0⟩)
    ∧ cached_get (some ⟨⟨"mempool.space", 600, [], [], false⟩, 0⟩) 30
        (.error "down")
      = .ok (⟨"mempool.space", 600, [], [], false⟩,
             some ⟨⟨"mempool.space", 600, [], [], false⟩, 0⟩) := by
  have h := cached_get_fresh_no_refetch none
    ⟨"mempool.space", 600, [], [], false⟩ 0 30
    (fun en hen => nomatch hen) (by norm_num [CACHE_TTL]) rfl
  exact ⟨h.1, h.2.1 (.error "down")⟩

/-- Claim C1: `get_hashrate_data` tries the sources in the fixed order
luxor (present iff `LUXOR_API_KEY` is non-empty), mempool.space,
blockchain.info, blockchair, and returns the result of the first source
whose `FetchResult` has positive `hashrate_ehs`, with no merging; when all
sources succeed with positive values the returned result is the luxor one
when the credential is configured and the mempool.space one otherwise, so
its `source` field is "luxor" resp. "mempool.space". -/
theorem get_hashrate_data_priority (k : String)
    (oL oM oB oC : Except String FetchResult) :
    (∀ r, firstPositiveResult (candidate_sources k oL oM oB oC) = some r →
        get_hashrate_data k oL oM oB oC = r)
    ∧ (∀ rL rM rB rC,
        oL = .ok rL → oM = .ok rM → oB = .ok rB → oC = .ok rC →
        0 < rL.hashrate_ehs → 0 < rM.hashrate_ehs →
        0 < rB.hashrate_ehs → 0 < rC.hashrate_ehs →
        get_hashrate_data k oL oM oB oC = if k = "" then rM else rL)
    ∧ (∀ rL rM rB rC,
        oL = .ok rL → oM = .ok rM → oB = .ok rB → oC = .ok rC →
        0 < rL.hashrate_ehs → 0 < rM.hashrate_ehs →
        0 < rB.hashrate_ehs → 0 < rC.hashrate_ehs →
        rL.source = "luxor" → rM.source = "mempool.space" →
        (get_hashrate_data k oL oM oB oC).source
          = if k = "" then "mempool.space" else "luxor") := by
  refine ⟨fun r h => orchestrate_loop_first_positive _ [] r h, ?_, ?_⟩
  · rintro rL rM rB rC rfl rfl rfl rfl hL hM hB hC
    by_cases hk : k = "" <;>
      simp [get_hashrate_data, candidate_sources, orchestrate_loop, hk,
        hL, hM]
  · rintro rL rM rB rC rfl rfl rfl rfl hL hM hB hC hsL hsM
    by_cases hk : k = "" <;>
      simp [get_hashrate_data, candidate_sources, orchestrate_loop, hk,
        hL, hM, hsL, hsM]

/-- Witness for C1: with the credential configured and all four sources
succeeding with positive values, the luxor result is returned. -/
theorem get_hashrate_data_priority_witness :
    get_hashrate_data "key" (.ok ⟨"luxor", 600, [], [], false⟩)
        (.ok ⟨"mempool.space", 500, [], [], false⟩)
        (.ok ⟨"blockchain.info", 400, [], [], false⟩)
        (.ok ⟨"blockchair", 300, [], [], false⟩)
      = ⟨"luxor", 600, [], [], false⟩ := by
  have h := (get_hashrate_data_priority "key" _ _ _ _).2.1
    ⟨"luxor", 600, [], [], false⟩ ⟨"mempool.space", 500, [], [], false⟩
    ⟨"blockchain.info", 400, [], [], false⟩ ⟨"blockchair", 300, [], [], false⟩
    rfl rfl rfl rfl (by norm_num) (by norm_num) (by norm_num) (by norm_num)
  simpa using h

/-- Counterexample to C2 as stated: with the credential configured, luxor
returning a zero-hashrate result without raising and the three free sources
raising, every source "raises or returns zero" yet the sentinel's errors
list has length 3, not 4 — a zero-returning source leaves no diagnostic. -/
theorem get_hashrate_data_zero_source_no_diagnostic :
    (get_hashrate_data "key" (.ok ⟨"luxor", 0, [], [], false⟩)
        (.error "boom1") (.error "boom2") (.error "boom3")).source
      = "unavailable"
    ∧ (get_hashrate_data "key" (.ok ⟨"luxor", 0, [], [], false⟩)
        (.error "boom1") (.error "boom2") (.error "boom3")).errors.length
      = 3 := by
  constructor <;>
    simp [get_hashrate_data, candidate_sources, orchestrate_loop]

/-- Claim C2 (amended): `get_hashrate_data` never raises; when every tried
source raises or returns a non-positive `hashrate_ehs`, it returns exactly
the sentinel with source "unavailable", zero hashrate, empty history, and
one "name: message" diagnostic per source that raised (sources that
returned zero contribute no entry); when the credential is configured and
all four sources raise, the list has exactly the four diagnostics. -/
theorem get_hashrate_data_total_failure (k : String)
    (oL oM oB oC : Except String FetchResult)
    (h : ∀ p ∈ candidate_sources k oL oM oB oC, failed_or_nonpositive p.2) :
    get_hashrate_data k oL oM oB oC =
      { source := "unavailable", hashrate_ehs := 0, history := [],
        errors := raised_diagnostics (candidate_sources k oL oM oB oC),
        stale := false }
    ∧ (∀ eL eM eB eC, k ≠ "" →
        oL = .error eL → oM = .error eM → oB = .error eB → oC = .error eC →
        (get_hashrate_data k oL oM oB oC).errors =
          ["luxor" ++ ": " ++ eL, "mempool.space" ++ ": " ++ eM,
           "blockchain.info" ++ ": " ++ eB, "blockchair" ++ ": " ++ eC]) := by
  constructor
  · simpa using orchestrate_loop_exhausted _ [] h
  · rintro eL eM eB eC hk rfl rfl rfl rfl
    simp [get_hashrate_data, candidate_sources, orchestrate_loop, hk]

/-- Witness for C2 (amended): all four sources raising yields the four
diagnostics in priority order. -/
theorem get_hashrate_data_total_failure_witness :
    (get_hashrate_data "key" (.error "a") (.error "b") (.error "c")
        (.error "d")).errors =
      ["luxor" ++ ": " ++ "a", "mempool.space" ++ ": " ++ "b",
       "blockchain.info" ++ ": " ++ "c", "blockchair" ++ ": " ++ "d"] := by
  have hall : ∀ p ∈ candidate_sources "key" (.error "a") (.error "b")
      (.error "c") (.error "d"), failed_or_nonpositive p.2 := by
    intro p hp
    simp [candidate_sources] at hp
    rcases hp with rfl | rfl | rfl | rfl <;> trivial
  exact (get_hashrate_data_total_failure "key" (.error "a") (.error "b")
    (.error "c") (.error "d") hall).2 "a" "b" "c" "d" (by simp)
    rfl rfl rfl rfl

/-- Counterexample to C6 as stated: luxor unconfigured, mempool.space
raising and blockchain.info succeeding with a positive value — the result's
source is indeed the next source's name, but its errors list is empty, not
a single entry for the failed source: the successful adapter result is
returned as-is and the accumulated diagnostic is dropped. -/
theorem get_hashrate_data_fallback_drops_diagnostic :
    (get_hashrate_data "" (.error "skip") (.error "timeout")
        (.ok ⟨"blockchain.info", 500, [], [], false⟩)
        (.ok ⟨"blockchair", 400, [], [], false⟩)).source
      = "blockchain.info"
    ∧ (get_hashrate_data "" (.error "skip") (.error "timeout")
        (.ok ⟨"blockchain.info", 500, [], [], false⟩)
        (.ok ⟨"blockchair", 400, [], [], false⟩)).errors
      = [] := by
  constructor <;>
    norm_num [get_hashrate_data, candidate_sources, orchestrate_loop]

/-- Claim C6 (amended): if the sources before some source i all raise and
source i+1 returns a positive result, `get_hashrate_data` returns source
i+1's result unchanged — so its `source` field is source i+1's name and its
errors list is the adapter's own (empty) one; the diagnostic recorded for
source i is not attached to the returned result. Stated for every adjacent
pair, with the credential configured (luxor→mempool.space,
mempool.space→blockchain.info, blockchain.info→blockchair) and without it
(mempool.space→blockchain.info, blockchain.info→blockchair). -/
theorem get_hashrate_data_fallback (k : String) (e1 e2 e3 : String)
    (r : FetchResult) (hpos : 0 < r.hashrate_ehs) (hre : r.errors = []) :
    (∀ oB oC, k ≠ "" →
        get_hashrate_data k (.error e1) (.ok r) oB oC = r
        ∧ (get_hashrate_data k (.error e1) (.ok r) oB oC).errors = [])
    ∧ (∀ oC, k ≠ "" →
        get_hashrate_data k (.error e1) (.error e2) (.ok r) oC = r
        ∧ (get_hashrate_data k (.error e1) (.error e2) (.ok r) oC).errors
          = [])
    ∧ (k ≠ "" →
        get_hashrate_data k (.error e1) (.error e2) (.error e3) (.ok r) = r
        ∧ (get_hashrate_data k (.error e1) (.error e2) (.error e3)
            (.ok r)).errors = [])
    ∧ (∀ oL oC, k = "" →
        get_hashrate_data k oL (.error e1) (.ok r) oC = r
        ∧ (get_hashrate_data k oL (.error e1) (.ok r) oC).errors = [])
    ∧ (∀ oL, k = "" →
        get_hashrate_data k oL (.error e1) (.error e2) (.ok r) = r
        ∧ (get_hashrate_data k oL (.error e1) (.error e2) (.ok r)).errors
          = []) := by
  refine ⟨?_, ?_, ?_, ?_, ?_⟩
  · intro oB oC hk
    have hr : get_hashrate_data k (.error e1) (.ok r) oB oC = r := by
      simp [get_hashrate_data, candidate_sources, orchestrate_loop, hk, hpos]
    exact ⟨hr, by rw [hr, hre]⟩
  · intro oC hk
    have hr : get_hashrate_data k (.error e1) (.error e2) (.ok r) oC = r := by
      simp [get_hashrate_data, candidate_sources, orchestrate_loop, hk, hpos]
    exact ⟨hr, by rw [hr, hre]⟩
  · intro hk
    have hr : get_hashrate_data k (.error e1) (.error e2) (.error e3)
        (.ok r) = r := by
      simp [get_hashrate_data, candidate_sources, orchestrate_loop, hk, hpos]
    exact ⟨hr, by rw [hr, hre]⟩
  · intro oL oC hk
    have hr : get_hashrate_data k oL (.error e1) (.ok r) oC = r := by
      simp [get_hashrate_data, candidate_sources, orchestrate_loop, hk, hpos]
    exact ⟨hr, by rw [hr, hre]⟩
  · intro oL hk
    have hr : get_hashrate_data k oL (.error e1) (.error e2) (.ok r) = r := by
      simp [get_hashrate_data, candidate_sources, orchestrate_loop, hk, hpos]
    exact ⟨hr, by rw [hr, hre]⟩

/-- Witness for C6 (amended): with the credential configured, luxor and
mempool.space fail and blockchain.info succeeds with a positive value; its
result comes back unchanged with no errors. -/
theorem get_hashrate_data_fallback_witness :
    get_hashrate_data "key" (.error "denied") (.error "timeout")
        (.ok ⟨"blockchain.info", 500, [], [], false⟩)
        (.ok ⟨"blockchair", 400, [], [], false⟩)
      = ⟨"blockchain.info", 500, [], [], false⟩ :=
  ((get_hashrate_data_fallback "key" "denied" "timeout" "unused"
      ⟨"blockchain.info", 500, [], [], false⟩ (by norm_num) rfl).2.1
    (.ok ⟨"blockchair", 400, [], [], false⟩) (by simp)).1

/-- Claim C7: `fetch_with_retry` with 3 attempts and base delay 1/2 invokes
the call sequentially at most 3 times, returns the first successful result,
sleeps `base * 2 ^ attempt + jitter attempt` between a failed attempt and
the next but never after the final attempt, and when all attempts fail it
fails with exactly the most recent error. -/
theorem fetch_with_retry_spec (outcomes : ℕ → Except String α)
    (jitter : ℕ → ℚ) :
    (∀ a, outcomes 0 = .ok a →
        fetch_with_retry outcomes jitter 3 (1 / 2) = (.ok a, [], 1))
    ∧ (∀ e0 a, outcomes 0 = .error e0 → outcomes 1 = .ok a →
        fetch_with_retry outcomes jitter 3 (1 / 2)
          = (.ok a, [1 / 2 * 2 ^ 0 + jitter 0], 2))
    ∧ (∀ e0 e1 a, outcomes 0 = .error e0 → outcomes 1 = .error e1 →
        outcomes 2 = .ok a →
        fetch_with_retry outcomes jitter 3 (1 / 2)
          = (.ok a, [1 / 2 * 2 ^ 0 + jitter 0, 1 / 2 * 2 ^ 1 + jitter 1], 3))
    ∧ (∀ e0 e1 e2, outcomes 0 = .error e0 → outcomes 1 = .error e1 →
        outcomes 2 = .error e2 →
        fetch_with_retry outcomes jitter 3 (1 / 2)
          = (.error (some e2),
             [1 / 2 * 2 ^ 0 + jitter 0, 1 / 2 * 2 ^ 1 + jitter 1], 3))
    ∧ (fetch_with_retry outcomes jitter 3 (1 / 2)).2.2 ≤ 3 := by
  refine ⟨?_, ?_, ?_, ?_, ?_⟩
  · intro a h
    simp [fetch_with_retry, retry_go, h]
  · intro e0 a h0 h1
    simp [fetch_with_retry, retry_go, h0, h1]
  · intro e0 e1 a h0 h1 h2
    simp [fetch_with_retry, retry_go, h0, h1, h2]
  · intro e0 e1 e2 h0 h1 h2
    simp [fetch_with_retry, retry_go, h0, h1, h2]
  · rcases ho0 : outcomes 0 with e0 | a0 <;>
      rcases ho1 : outcomes 1 with e1 | a1 <;>
        rcases ho2 : outcomes 2 with e2 | a2 <;>
          simp [fetch_with_retry, retry_go, ho0, ho1, ho2]

/-- Witness for C7: a call failing once then succeeding is invoked twice,
with one intervening sleep of the backoff formula for attempt 0. -/
theorem fetch_with_retry_spec_witness :
    fetch_with_retry
        (fun n => if n = 0 then (.error "boom" : Except String ℕ) else .ok 7)
        (fun _ => 0) 3 (1 / 2)
      = (.ok 7, [1 / 2 * 2 ^ 0 + 0], 2) := by
  have h := (fetch_with_retry_spec
      (fun n => if n = 0 then (.error "boom" : Except String ℕ) else .ok 7)
      (fun _ => (0 : ℚ))).2.1 "boom" 7 rfl rfl
  simpa using h

end Server
